import Mathlib

/-!
Verification of the thingsdiary client-js end-to-end encryption envelope.

This file gives a shallow embedding of the cryptographic core of the
repository: byte-string utilities (base64, text encoding), models of the
external cryptographic primitives (AES-256-GCM, NaCl sealed boxes over
X25519, Ed25519 signing, PBKDF2), the credential derivation, the key
hierarchy manager, the envelope codec inlined in the resource classes, and
the signed mutation-request pipeline of each resource API.

External library primitives (noble/stablelib AEAD, curves, hashes and the
platform JSON / TextEncoder / base64 helpers) are modelled symbolically:
each model is a concrete executable function that preserves exactly the
algebra the client code relies on (round-trips, authenticated failure,
Diffie-Hellman commutativity, determinism), while the composition logic is
translated line by line from the repository sources.
-/

namespace ThingsDiary

/-- Byte strings are modelled as lists of naturals; a well-formed byte is below 256. -/
abbrev Bytes := List Nat

/-- Predicate (as a Bool) that every element of a byte string is a real byte. -/
def allBytes (bs : Bytes) : Bool := bs.all (fun b => b < 256)

/-- Little-endian base-256 encoding of a natural into a fixed number of bytes. -/
def toBytesN : Nat → Nat → Bytes
  | 0, _ => []
  | len + 1, n => n % 256 :: toBytesN len (n / 256)

/-- Little-endian base-256 value of a byte string. -/
def natOfBytes : Bytes → Nat
  | [] => 0
  | b :: bs => b + 256 * natOfBytes bs

/-! Base64 encoding, modelled from the repository encoding utilities: the
golden vectors in the encoding test file pin standard base64 with padding. -/

/-- Standard base64 alphabet. -/
def b64Alphabet : List Char :=
  "ABCDEFGHIJKLMNOPQRSTUVWXYZabcdefghijklmnopqrstuvwxyz0123456789+/".data

/-- Character for a 6-bit value. -/
def b64Char (n : Nat) : Char := b64Alphabet.getD n 'A'

/-- Inverse lookup of a base64 character. -/
def b64Index (c : Char) : Nat := b64Alphabet.indexOf c

/-- Encode bytes into base64 characters, three bytes at a time, padding with
the equals character. -/
def b64EncodeChars : Bytes → List Char
  | [] => []
  | [a] => [b64Char (a / 4), b64Char (a % 4 * 16), '=', '=']
  | [a, b] => [b64Char (a / 4), b64Char (a % 4 * 16 + b / 16), b64Char (b % 16 * 4), '=']
  | a :: b :: c :: rest =>
      b64Char (a / 4) :: b64Char (a % 4 * 16 + b / 16) ::
      b64Char (b % 16 * 4 + c / 64) :: b64Char (c % 64) :: b64EncodeChars rest

/-- Decode base64 characters into bytes, four characters at a time. -/
def b64DecodeChars : List Char → Bytes
  | c1 :: c2 :: c3 :: c4 :: rest =>
      if c3 = '=' then [b64Index c1 * 4 + b64Index c2 / 16]
      else if c4 = '=' then
        [b64Index c1 * 4 + b64Index c2 / 16, b64Index c2 % 16 * 16 + b64Index c3 / 4]
      else
        (b64Index c1 * 4 + b64Index c2 / 16) ::
        (b64Index c2 % 16 * 16 + b64Index c3 / 4) ::
        (b64Index c3 % 4 * 64 + b64Index c4) :: b64DecodeChars rest
  | _ => []

/-- Model of `bytesToBase64` from the repository encoding utilities. -/
def bytesToBase64 (bs : Bytes) : String := String.mk (b64EncodeChars bs)

/-- Model of `base64ToBytes` from the repository encoding utilities. -/
def base64ToBytes (s : String) : Bytes := b64DecodeChars s.data

/-- Model of the platform TextEncoder: UTF-8 serialization of a string,
modelled as the code points of its characters. -/
def textEncode (s : String) : Bytes := s.data.map Char.toNat

/-- Model of the platform TextDecoder, the inverse of `textEncode`. -/
def textDecode (bs : Bytes) : String := String.mk (bs.map Char.ofNat)

/-- Predicate that every character of a string has a code point below 256,
so that its `textEncode` image is a well-formed byte string. -/
def latin1 (s : String) : Bool := s.data.all (fun c => c.toNat < 256)

/-! Crypto primitive models, translated from src/crypto/encryption.ts (seen
as unnamed part_005).  The noble/stablelib cipher internals are modelled
symbolically: an AEAD ciphertext is the injective tagged encoding
key ++ nonce ++ plaintext, so that decryption succeeds exactly when key and
nonce match, the idealization of an authenticated cipher. -/

/-- Error taxonomy of the client (section 7 of the design): AEAD tag
mismatch, malformed sealed box, sealed-box authentication failure, missing
active key, and the runtime error of indexing an empty key list. -/
inductive CryptoError where
  | decryptionError
  | invalidSealedBox
  | decryptionFailed
  | noActiveKey
  | missingEncryptionKey
  | parseError
deriving DecidableEq, Repr

/-- Model of `encryptWithSymmetricKey(data, key)` (AES-256-GCM): the 12-byte
random nonce drawn inside the function is passed explicitly; the returned
pair is (nonce, ciphertext) as in the source. -/
def encryptWithSymmetricKey (data key : Bytes) (nonce : Bytes) : Bytes × Bytes :=
  (nonce, key ++ nonce ++ data)

/-- Model of `decryptWithSymmetricKey(nonce, ciphertext, key)`: fails closed
whenever key or nonce does not match the encryption call. -/
def decryptWithSymmetricKey (nonce ciphertext key : Bytes) : Except CryptoError Bytes :=
  if key ++ nonce <+: ciphertext then
    .ok (ciphertext.drop (key.length + nonce.length))
  else
    .error .decryptionError

/-! Sealed-box model.  X25519 is modelled as Diffie-Hellman exponentiation
modulo the curve25519 prime: public key g ^ secret mod p, shared secret
pub ^ secret mod p, which has exactly the commutativity the NaCl box
construction relies on. -/

/-- The curve25519 field prime. -/
def curveP : Nat := 2 ^ 255 - 19

/-- The curve25519 base point coordinate. -/
def curveG : Nat := 9

/-- Model of X25519 public-key derivation from a 32-byte secret. -/
def x25519PublicKey (secret : Bytes) : Bytes :=
  toBytesN 32 (curveG ^ natOfBytes secret % curveP)

/-- Model of the X25519 shared secret between a secret key and a public key. -/
def x25519Shared (secret pub : Bytes) : Nat :=
  natOfBytes pub ^ natOfBytes secret % curveP

/-- Model of SHA-512 (noble/hashes): a deterministic 64-byte digest. -/
def sha512 (bs : Bytes) : Bytes :=
  toBytesN 64 (bs.foldl (fun h b => (h * 1099511628211 + b + 1) % 2 ^ 512) 7)

/-- Model of stablelib `box(publicKey, secretKey, nonce, data)`: a symbolic
authenticated ciphertext binding the DH shared secret and the nonce. -/
def naclBox (pub secret nonce data : Bytes) : Bytes :=
  toBytesN 32 (x25519Shared secret pub) ++ nonce ++ data

/-- Model of stablelib `openBox(theirPublicKey, secretKey, nonce, ciphertext)`:
opens exactly when the recomputed shared secret and nonce match. -/
def naclOpenBox (theirPub secret nonce ciphertext : Bytes) : Option Bytes :=
  if toBytesN 32 (x25519Shared secret theirPub) ++ nonce <+: ciphertext then
    some (ciphertext.drop (32 + nonce.length))
  else
    none

/-- Model of `encryptWithPublicKey(data, publicKey)` from
src/crypto/encryption.ts: sealed box ephemeralPublicKey(32) ++ ciphertext,
with the nonce the first 24 bytes of SHA-512(ephemeralPublicKey ++ publicKey).
The fresh ephemeral secret drawn inside the function is passed explicitly. -/
def encryptWithPublicKey (data publicKey : Bytes) (ephemeralSecret : Bytes) : Bytes :=
  let ephemeralPublicKey := x25519PublicKey ephemeralSecret
  let combined := ephemeralPublicKey ++ publicKey
  let nonce := (sha512 combined).take 24
  let encrypted := naclBox publicKey ephemeralSecret nonce data
  ephemeralPublicKey ++ encrypted

/-- Model of `decryptWithPrivateKey(encrypted, privateKey, publicKey)`:
re-derives the nonce from the 32-byte ephemeral prefix and opens the box. -/
def decryptWithPrivateKey (encrypted privateKey publicKey : Bytes) :
    Except CryptoError Bytes :=
  if encrypted.length < 32 then
    .error .invalidSealedBox
  else
    match naclOpenBox (encrypted.take 32) privateKey
        ((sha512 (encrypted.take 32 ++ publicKey)).take 24) (encrypted.drop 32) with
    | some plaintext => .ok plaintext
    | none => .error .decryptionFailed

/-! Signing and credential derivation, translated from
src/src/crypto/signature.ts and src/crypto/credentials.ts. -/

/-- The Ed25519 group order used by the signing model. -/
def edOrder : Nat := 2 ^ 252 + 27742317777372353535851937790883648493

/-- Model of Ed25519 public-key derivation (noble/curves `ed25519.getPublicKey`):
a deterministic 32-byte value derived from the 32-byte seed. -/
def ed25519PublicKey (seed : Bytes) : Bytes :=
  toBytesN 32 (15 ^ natOfBytes seed % edOrder)

/-- Model of `signBytes(data, privateKey)` (noble/curves `ed25519.sign`):
a deterministic 64-byte signature over the message and the private key. -/
def signBytes (data privateKey : Bytes) : Bytes :=
  toBytesN 64 ((natOfBytes privateKey + 3) ^ (natOfBytes (sha512 data) + 2) % edOrder)

/-- Model of PBKDF2 (noble/hashes `pbkdf2`): `count` iterations of a
pseudo-random mixing step over the password and salt, truncated to `dkLen`
bytes. -/
def pbkdf2Step (x : Nat) : Nat :=
  (x * 6364136223846793005 + 1442695040888963407) % 2 ^ 256

/-- Model of the PBKDF2 derivation with SHA-256 as the PRF. -/
def pbkdf2 (password salt : String) (count dkLen : Nat) : Bytes :=
  toBytesN dkLen (pbkdf2Step^[count] (natOfBytes (textEncode password ++ textEncode salt)))

/-- Credentials bundle from src/crypto/credentials.ts. -/
structure Credentials where
  encryptionPublicKey : Bytes
  encryptionPrivateKey : Bytes
  signingPublicKey : Bytes
  signingPrivateKey : Bytes
deriving DecidableEq, Repr

/-- The fixed application salt passed to PBKDF2 in `deriveCredentials`. -/
def credentialSalt : String := "my-app-context"

/-- The PBKDF2 iteration count in `deriveCredentials` (c: 100_000). -/
def pbkdf2Iterations : Nat := 100000

/-- Model of `deriveCredentials(seedPhrase)`: one 32-byte PBKDF2 seed, reused
directly as the Ed25519 seed and as the X25519 private scalar. -/
def deriveCredentials (seedPhrase : String) : Credentials :=
  let seed := pbkdf2 seedPhrase credentialSalt pbkdf2Iterations 32
  let signingPublicKey := ed25519PublicKey seed
  let signingPrivateKey := seed
  let encryptionPublicKey := x25519PublicKey seed
  let encryptionPrivateKey := seed
  { encryptionPublicKey := encryptionPublicKey,
    encryptionPrivateKey := encryptionPrivateKey,
    signingPublicKey := signingPublicKey,
    signingPrivateKey := signingPrivateKey }

/-! JSON model of the platform `JSON.stringify`, restricted to the value
shapes the client actually serializes. -/

/-- JSON values built by the client request constructors. -/
inductive Json where
  | str (s : String)
  | num (n : Nat)
  | bool (b : Bool)
  | null
  | arr (items : List Json)
  | obj (fields : List (String × Json))

mutual

/-- Model of `JSON.stringify`: key order preserved, no whitespace, no escaping
(the client only serializes base64 strings, identifiers and plain field
names). -/
def Json.stringify : Json → String
  | .str s => "\"" ++ s ++ "\""
  | .num n => toString n
  | .bool true => "true"
  | .bool false => "false"
  | .null => "null"
  | .arr items => "[" ++ Json.stringifyItems items ++ "]"
  | .obj fields => "\x7b" ++ Json.stringifyFields fields ++ "\x7d"

/-- Comma-separated serialization of array items. -/
def Json.stringifyItems : List Json → String
  | [] => ""
  | [x] => Json.stringify x
  | x :: y :: rest => Json.stringify x ++ "," ++ Json.stringifyItems (y :: rest)

/-- Comma-separated serialization of object fields. -/
def Json.stringifyFields : List (String × Json) → String
  | [] => ""
  | [(k, v)] => "\"" ++ k ++ "\":" ++ Json.stringify v
  | (k, v) :: p :: rest =>
      "\"" ++ k ++ "\":" ++ Json.stringify v ++ "," ++ Json.stringifyFields (p :: rest)

end

/-- Lookup of an object field, used to state properties of request bodies. -/
def Json.lookup (j : Json) (key : String) : Option Json :=
  match j with
  | .obj fields => (fields.find? (fun kv => kv.1 == key)).map (fun kv => kv.2)
  | _ => none

/-! Model of `JSON.parse` restricted to the flat objects with string values
that the envelope codec round-trips (record field mappings). -/

/-- Flat record field mapping, the plaintext shape of the envelope codec. -/
abbrev FieldMap := List (String × String)

/-- Field mapping as a JSON object with string values. -/
def fieldsToJson (fields : FieldMap) : Json :=
  .obj (fields.map fun kv => (kv.1, .str kv.2))

/-- Scan a double-quote-terminated string literal body, returning the body
and the input following the closing quote. -/
def scanString : List Char → Option (List Char × List Char)
  | [] => none
  | c :: rest =>
      if c = '"' then some ([], rest)
      else
        match scanString rest with
        | some (s, r) => some (c :: s, r)
        | none => none

/-- Parse a comma-separated sequence of string-valued pairs terminated by a
closing brace, with fuel. -/
def parsePairsAux : Nat → List Char → Option FieldMap
  | 0, _ => none
  | fuel + 1, cs =>
      match cs with
      | [] => none
      | c0 :: rest =>
          if c0 = '"' then
            match scanString rest with
            | none => none
            | some (key, afterKey) =>
                match afterKey with
                | a1 :: a2 :: rest2 =>
                    if a1 = ':' ∧ a2 = '"' then
                      match scanString rest2 with
                      | none => none
                      | some (val, afterVal) =>
                          match afterVal with
                          | [] => none
                          | b :: more =>
                              if b = ',' then
                                match parsePairsAux fuel more with
                                | some ps => some ((String.mk key, String.mk val) :: ps)
                                | none => none
                              else if b = '\x7d' ∧ more = [] then
                                some [(String.mk key, String.mk val)]
                              else none
                    else none
                | _ => none
          else none

/-- Model of `JSON.parse` on the serialized form of a flat field mapping. -/
def jsonParseFields (s : String) : Option FieldMap :=
  match s.data with
  | [] => none
  | c0 :: rest =>
      if c0 = '\x7b' then
        if rest = ['\x7d'] then some []
        else parsePairsAux rest.length rest
      else none

/-- Guard for the round-trip: no double quote inside keys or values, and
every character is a single byte. -/
def goodStr (s : String) : Prop := '"' ∉ s.data ∧ ∀ c ∈ s.data, c.toNat < 256

/-- Guard on a whole field mapping. -/
def goodFields (fields : FieldMap) : Prop :=
  ∀ kv ∈ fields, goodStr kv.1 ∧ goodStr kv.2

instance : DecidablePred goodStr := fun s => by
  unfold goodStr
  infer_instance

instance : DecidablePred goodFields := fun fields => by
  unfold goodFields
  infer_instance

/-! Key hierarchy manager, translated from src/src/resources/keys.ts.  The
network fetch is modelled by passing the server response (the list of
per-diary encrypted keys) as an argument. -/

/-- Key status union from the wire contract. -/
inductive KeyStatus where
  | active
  | rotating
deriving DecidableEq, Repr

/-- Wire shape of one encrypted key (`ApiKey` in keys.ts). -/
structure ApiKey where
  id : String
  value : String
  status : KeyStatus
deriving DecidableEq, Repr

/-- Decrypted key (`EncryptionKey` in keys.ts). -/
structure EncryptionKey where
  id : String
  value : Bytes
  status : KeyStatus
deriving DecidableEq, Repr

/-- Model of `KeysAPI.decryptKey`: sealed-box decryption of the base64 key
value under the account encryption keypair. -/
def decryptKey (credentials : Credentials) (apiKey : ApiKey) :
    Except CryptoError EncryptionKey :=
  match decryptWithPrivateKey (base64ToBytes apiKey.value)
      credentials.encryptionPrivateKey credentials.encryptionPublicKey with
  | .ok key => .ok { id := apiKey.id, value := key, status := apiKey.status }
  | .error e => .error e

/-- Model of `KeysAPI.list`: decrypt every key of the server response, failing
on the first key that does not decrypt. -/
def keysList (credentials : Credentials) :
    List ApiKey → Except CryptoError (List EncryptionKey)
  | [] => .ok []
  | k :: ks =>
      match decryptKey credentials k with
      | .error e => .error e
      | .ok ek =>
          match keysList credentials ks with
          | .error e => .error e
          | .ok eks => .ok (ek :: eks)

/-- Model of `KeysAPI.getActive`: first decrypted key with status active,
failing with the no-active-key error when none matches. -/
def keysGetActive (credentials : Credentials) (response : List ApiKey) :
    Except CryptoError EncryptionKey :=
  match keysList credentials response with
  | .error e => .error e
  | .ok keys =>
      match keys.find? (fun k => k.status == KeyStatus.active) with
      | some activeKey => .ok activeKey
      | none => .error .noActiveKey

/-- Value of a successful decryption, used to phrase the key-list lemma. -/
def okValue : Except CryptoError Bytes → Bytes
  | .ok v => v
  | .error _ => []

/-! Diary resource, translated from src/src/resources/diaries.ts.  The diary
code declares its own key record without a status field and reads only
element 0 of `encryption_keys`; the server record is the full key tuple, so
the wire model reuses `ApiKey` and the code below never touches status. -/

/-- Wire shape of an AEAD envelope field ({nonce, data}). -/
structure Envelope where
  nonce : String
  data : String
deriving DecidableEq, Repr

/-- Wire shape of the record encryption metadata. -/
structure WireEncryption where
  encrypted_key_nonce : String
  encrypted_key_data : String
deriving DecidableEq, Repr

/-- Wire shape of a diary record (`ApiDiary` in diaries.ts). -/
structure ApiDiary where
  id : String
  created_at : String
  updated_at : String
  version : Nat
  encryption : WireEncryption
  encryption_keys : List ApiKey
  details : Envelope
deriving DecidableEq, Repr

/-- Decrypted diary record. -/
structure Diary where
  id : String
  title : String
  description : String
  version : Nat
deriving DecidableEq, Repr

/-- Model of `DiariesAPI.getDiaryKey`: sealed-box decryption of element 0 of
`encryption_keys`, unconditionally.  The source reads
`apiDiary.encryption_keys[0].value` with no emptiness check; on an empty
list that is a runtime type error, modelled as the distinct
`missingEncryptionKey` error. -/
def getDiaryKey (credentials : Credentials) (apiDiary : ApiDiary) :
    Except CryptoError Bytes :=
  match apiDiary.encryption_keys with
  | [] => .error .missingEncryptionKey
  | k :: _ =>
      decryptWithPrivateKey (base64ToBytes k.value)
        credentials.encryptionPrivateKey credentials.encryptionPublicKey

/-- Model of `DiariesAPI.decryptDiary`: diary key from element 0, entity key
under the diary key, details under the entity key, JSON parse. -/
def decryptDiary (credentials : Credentials) (apiDiary : ApiDiary) :
    Except CryptoError Diary :=
  match getDiaryKey credentials apiDiary with
  | .error e => .error e
  | .ok diaryKey =>
      match decryptWithSymmetricKey
          (base64ToBytes apiDiary.encryption.encrypted_key_nonce)
          (base64ToBytes apiDiary.encryption.encrypted_key_data) diaryKey with
      | .error e => .error e
      | .ok entityKey =>
          match decryptWithSymmetricKey (base64ToBytes apiDiary.details.nonce)
              (base64ToBytes apiDiary.details.data) entityKey with
          | .error e => .error e
          | .ok detailsBytes =>
              match jsonParseFields (textDecode detailsBytes) with
              | none => .error .parseError
              | some details =>
                  .ok { id := apiDiary.id,
                        title := (details.lookup "title").getD "",
                        description := (details.lookup "description").getD "",
                        version := apiDiary.version }

/-- Model of the `DiariesAPI.get` response handling. -/
def diariesGet (credentials : Credentials) (response : ApiDiary) :
    Except CryptoError Diary :=
  decryptDiary credentials response

/-- Model of the `DiariesAPI.list` response handling. -/
def diariesList (credentials : Credentials) :
    List ApiDiary → Except CryptoError (List Diary)
  | [] => .ok []
  | d :: ds =>
      match decryptDiary credentials d with
      | .error e => .error e
      | .ok x =>
          match diariesList credentials ds with
          | .error e => .error e
          | .ok xs => .ok (x :: xs)

/-! Envelope codec (spec section 4.4): the two-tier wrap/unwrap inlined in
`EntriesAPI.put` / `EntriesAPI.decryptEntry` (part_002) and repeated in the
diary, topic and template resources, lifted over a flat field mapping.
Random draws (entity key and both nonces) are explicit arguments. -/

/-- Encode path of the codec: serialize the fields, encrypt them under a
fresh entity key, and wrap the entity key under the diary key; both
envelopes are carried as base64 strings as in the request bodies. -/
def wrapRecord (fields : FieldMap) (diaryKey : Bytes)
    (entityKey detailsNonce keyNonce : Bytes) : WireEncryption × Envelope :=
  let detailsJson := textEncode (Json.stringify (fieldsToJson fields))
  let d := encryptWithSymmetricKey detailsJson entityKey detailsNonce
  let k := encryptWithSymmetricKey entityKey diaryKey keyNonce
  ({ encrypted_key_nonce := bytesToBase64 k.1,
     encrypted_key_data := bytesToBase64 k.2 },
   { nonce := bytesToBase64 d.1, data := bytesToBase64 d.2 })

/-- Decode path of the codec, as in `decryptEntry`: entity key from the
diary key, fields from the entity key, JSON parse. -/
def unwrapRecord (encryption : WireEncryption) (details : Envelope)
    (diaryKey : Bytes) : Except CryptoError FieldMap :=
  match decryptWithSymmetricKey (base64ToBytes encryption.encrypted_key_nonce)
      (base64ToBytes encryption.encrypted_key_data) diaryKey with
  | .error e => .error e
  | .ok entityKey =>
      match decryptWithSymmetricKey (base64ToBytes details.nonce)
          (base64ToBytes details.data) entityKey with
      | .error e => .error e
      | .ok detailsBytes =>
          match jsonParseFields (textDecode detailsBytes) with
          | some fields => .ok fields
          | none => .error .parseError

/-! Request pipeline models.  `HttpClient.request` (part_001) serializes
`options.body` with `JSON.stringify` and sends those bytes; each resource
method signs its own serialization of the same request object and attaches
the signature in the X-Signature header. -/

/-- One outgoing HTTP request as handed to the transport. -/
structure HttpCall where
  path : String
  method : String
  body : Option Json
  headers : List (String × String)

/-- Bytes put on the wire by `HttpClient.request` for a call: the UTF-8
serialization of the JSON body. -/
def transmittedBody (call : HttpCall) : Bytes :=
  match call.body with
  | some j => textEncode (Json.stringify j)
  | none => []

/-- Nested object lookup, for stating request-shape properties. -/
def jsonLookup2 (j : Json) (key1 key2 : String) : Option Json :=
  match j.lookup key1 with
  | some inner => inner.lookup key2
  | none => none

/-- Parameters of `EntriesAPI.put`. -/
structure PutEntryParams where
  content : String
  topic_id : Option String
  archived : Option Bool
  bookmarked : Option Bool
  preview_hidden : Option Bool
  version : Option Nat

/-- Details object built by `EntriesAPI.put`. -/
def entryDetails (params : PutEntryParams) : Json :=
  .obj [("content", .str params.content),
        ("archived", .bool (params.archived.getD false)),
        ("bookmarked", .bool (params.bookmarked.getD false)),
        ("preview_hidden", .bool (params.preview_hidden.getD false))]

/-- Request body built by `EntriesAPI.put` after the active key is resolved.
The preview is encrypted from the same serialized details bytes, by its own
encryption call with its own nonce, under the same entity key. -/
def entriesPutRequest (encryptionKey : EncryptionKey) (params : PutEntryParams)
    (entityKey detailsNonce previewNonce keyNonce : Bytes) (freshVersion : Nat) : Json :=
  let diaryKey := encryptionKey.value
  let detailsJson := textEncode (Json.stringify (entryDetails params))
  let d := encryptWithSymmetricKey detailsJson entityKey detailsNonce
  let p := encryptWithSymmetricKey detailsJson entityKey previewNonce
  let k := encryptWithSymmetricKey entityKey diaryKey keyNonce
  .obj [("version", .num (params.version.getD freshVersion)),
        ("topic_id", match params.topic_id with
          | some t => .str t
          | none => .null),
        ("encryption", .obj [("diary_key_id", .str encryptionKey.id),
                             ("encrypted_key_nonce", .str (bytesToBase64 k.1)),
                             ("encrypted_key_data", .str (bytesToBase64 k.2))]),
        ("details", .obj [("nonce", .str (bytesToBase64 d.1)),
                          ("data", .str (bytesToBase64 d.2))]),
        ("preview", .obj [("nonce", .str (bytesToBase64 p.1)),
                          ("data", .str (bytesToBase64 p.2))])]

/-- Model of `EntriesAPI.put`: sign the serialized request and hand the same
request object to the transport. -/
def entriesPutCall (credentials : Credentials) (diaryId entryId : String)
    (encryptionKey : EncryptionKey) (params : PutEntryParams)
    (entityKey detailsNonce previewNonce keyNonce : Bytes) (freshVersion : Nat) :
    HttpCall :=
  let request := entriesPutRequest encryptionKey params entityKey detailsNonce
    previewNonce keyNonce freshVersion
  let requestJson := textEncode (Json.stringify request)
  let signature := signBytes requestJson credentials.signingPrivateKey
  { path := "/v1/diaries/" ++ diaryId ++ "/entries/" ++ entryId,
    method := "PUT",
    body := some request,
    headers := [("X-Signature", bytesToBase64 signature)] }

/-- Parameters of `DiariesAPI.create`. -/
structure CreateDiaryParams where
  title : String
  description : String

/-- Details object built by the diary resource. -/
def diaryDetails (title description : String) : Json :=
  .obj [("title", .str title), ("description", .str description)]

/-- Request body built by `DiariesAPI.create`: fresh diary key sealed to the
account encryption public key, plus the two-tier envelope. -/
def diariesCreateRequest (credentials : Credentials) (params : CreateDiaryParams)
    (diaryKey entityKey detailsNonce keyNonce ephemeralSecret : Bytes) : Json :=
  let detailsJson := textEncode (Json.stringify (diaryDetails params.title params.description))
  let d := encryptWithSymmetricKey detailsJson entityKey detailsNonce
  let k := encryptWithSymmetricKey entityKey diaryKey keyNonce
  let encryptedDiaryKey := encryptWithPublicKey diaryKey
    credentials.encryptionPublicKey ephemeralSecret
  .obj [("encrypted_diary_key", .str (bytesToBase64 encryptedDiaryKey)),
        ("details", .obj [("nonce", .str (bytesToBase64 d.1)),
                          ("data", .str (bytesToBase64 d.2))]),
        ("encryption", .obj [("encrypted_key_nonce", .str (bytesToBase64 k.1)),
                             ("encrypted_key_data", .str (bytesToBase64 k.2))])]

/-- Model of `DiariesAPI.create` up to the transport call. -/
def diariesCreateCall (credentials : Credentials) (params : CreateDiaryParams)
    (diaryKey entityKey detailsNonce keyNonce ephemeralSecret : Bytes) : HttpCall :=
  let request := diariesCreateRequest credentials params diaryKey entityKey
    detailsNonce keyNonce ephemeralSecret
  let requestJson := textEncode (Json.stringify request)
  let signature := signBytes requestJson credentials.signingPrivateKey
  { path := "/v1/diaries",
    method := "POST",
    body := some request,
    headers := [("X-Signature", bytesToBase64 signature)] }

/-- Parameters of `DiariesAPI.put`. -/
structure PutDiaryParams where
  title : String
  description : String
  version : Option Nat

/-- Request body built by `DiariesAPI.put`. -/
def diariesPutRequest (encryptionKey : EncryptionKey) (params : PutDiaryParams)
    (entityKey detailsNonce keyNonce : Bytes) (freshVersion : Nat) : Json :=
  let diaryKey := encryptionKey.value
  let detailsJson := textEncode (Json.stringify (diaryDetails params.title params.description))
  let d := encryptWithSymmetricKey detailsJson entityKey detailsNonce
  let k := encryptWithSymmetricKey entityKey diaryKey keyNonce
  .obj [("version", .num (params.version.getD freshVersion)),
        ("details", .obj [("nonce", .str (bytesToBase64 d.1)),
                          ("data", .str (bytesToBase64 d.2))]),
        ("encryption", .obj [("diary_key_id", .str encryptionKey.id),
                             ("encrypted_key_nonce", .str (bytesToBase64 k.1)),
                             ("encrypted_key_data", .str (bytesToBase64 k.2))])]

/-- Model of `DiariesAPI.put` up to the transport call. -/
def diariesPutCall (credentials : Credentials) (diaryId : String)
    (encryptionKey : EncryptionKey) (params : PutDiaryParams)
    (entityKey detailsNonce keyNonce : Bytes) (freshVersion : Nat) : HttpCall :=
  let request := diariesPutRequest encryptionKey params entityKey detailsNonce
    keyNonce freshVersion
  let requestJson := textEncode (Json.stringify request)
  let signature := signBytes requestJson credentials.signingPrivateKey
  { path := "/v1/diaries/" ++ diaryId,
    method := "PUT",
    body := some request,
    headers := [("X-Signature", bytesToBase64 signature)] }

/-- Parameters of `TopicsAPI.put`. -/
structure PutTopicParams where
  title : String
  description : String
  color : String
  default_template_id : Option String
  version : Option Nat

/-- Details object built by `TopicsAPI.put`. -/
def topicDetails (params : PutTopicParams) : Json :=
  .obj [("title", .str params.title),
        ("description", .str params.description),
        ("color", .str params.color)]

/-- Request body built by `TopicsAPI.put`. -/
def topicsPutRequest (encryptionKey : EncryptionKey) (params : PutTopicParams)
    (entityKey detailsNonce keyNonce : Bytes) (freshVersion : Nat) : Json :=
  let diaryKey := encryptionKey.value
  let detailsJson := textEncode (Json.stringify (topicDetails params))
  let d := encryptWithSymmetricKey detailsJson entityKey detailsNonce
  let k := encryptWithSymmetricKey entityKey diaryKey keyNonce
  .obj [("version", .num (params.version.getD freshVersion)),
        ("default_template_id", match params.default_template_id with
          | some t => .str t
          | none => .null),
        ("encryption", .obj [("diary_key_id", .str encryptionKey.id),
                             ("encrypted_key_nonce", .str (bytesToBase64 k.1)),
                             ("encrypted_key_data", .str (bytesToBase64 k.2))]),
        ("details", .obj [("nonce", .str (bytesToBase64 d.1)),
                          ("data", .str (bytesToBase64 d.2))])]

/-- Model of `TopicsAPI.put` up to the transport call. -/
def topicsPutCall (credentials : Credentials) (diaryId topicId : String)
    (encryptionKey : EncryptionKey) (params : PutTopicParams)
    (entityKey detailsNonce keyNonce : Bytes) (freshVersion : Nat) : HttpCall :=
  let request := topicsPutRequest encryptionKey params entityKey detailsNonce
    keyNonce freshVersion
  let requestJson := textEncode (Json.stringify request)
  let signature := signBytes requestJson credentials.signingPrivateKey
  { path := "/v1/diaries/" ++ diaryId ++ "/topics/" ++ topicId,
    method := "PUT",
    body := some request,
    headers := [("X-Signature", bytesToBase64 signature)] }

/-- Parameters of `TemplatesAPI.put`. -/
structure PutTemplateParams where
  content : String
  version : Option Nat

/-- Request body built by `TemplatesAPI.put`.  Unlike every other resource,
templates.ts serializes the envelope byte arrays with `Array.from`, so the
wire fields are JSON arrays of numbers rather than base64 strings. -/
def templatesPutRequest (encryptionKey : EncryptionKey) (params : PutTemplateParams)
    (entityKey detailsNonce keyNonce : Bytes) (freshVersion : Nat) : Json :=
  let diaryKey := encryptionKey.value
  let detailsJson := textEncode (Json.stringify (.obj [("content", .str params.content)]))
  let d := encryptWithSymmetricKey detailsJson entityKey detailsNonce
  let k := encryptWithSymmetricKey entityKey diaryKey keyNonce
  .obj [("version", .num (params.version.getD freshVersion)),
        ("encryption", .obj [("diary_key_id", .str encryptionKey.id),
                             ("encrypted_key_nonce", .arr (k.1.map Json.num)),
                             ("encrypted_key_data", .arr (k.2.map Json.num))]),
        ("details", .obj [("nonce", .arr (d.1.map Json.num)),
                          ("data", .arr (d.2.map Json.num))])]

/-- Model of `TemplatesAPI.put` up to the transport call (the template routes
carry no /v1 prefix in the source). -/
def templatesPutCall (credentials : Credentials) (diaryId templateId : String)
    (encryptionKey : EncryptionKey) (params : PutTemplateParams)
    (entityKey detailsNonce keyNonce : Bytes) (freshVersion : Nat) : HttpCall :=
  let request := templatesPutRequest encryptionKey params entityKey detailsNonce
    keyNonce freshVersion
  let requestJson := textEncode (Json.stringify request)
  let signature := signBytes requestJson credentials.signingPrivateKey
  { path := "/diaries/" ++ diaryId ++ "/templates/" ++ templateId,
    method := "PUT",
    body := some request,
    headers := [("X-Signature", bytesToBase64 signature)] }

/-- Fixed concrete credentials for the key-manager witnesses. -/
def c6creds : Credentials :=
  { encryptionPublicKey := x25519PublicKey [3],
    encryptionPrivateKey := [3],
    signingPublicKey := [7],
    signingPrivateKey := [7] }

/-- A concrete diary key sealed to the witness account. -/
def c6sealedKey : String :=
  bytesToBase64 (encryptWithPublicKey (List.replicate 32 9) (x25519PublicKey [3]) [5])

/-- A concrete key list whose only key is rotating. -/
def c6keysRotOnly : List ApiKey :=
  [{ id := "k1", value := c6sealedKey, status := KeyStatus.rotating }]

/-- A concrete diary record with an empty key list. -/
def c10diaryEmpty : ApiDiary :=
  { id := "d1", created_at := "", updated_at := "", version := 1,
    encryption := { encrypted_key_nonce := "", encrypted_key_data := "" },
    encryption_keys := [],
    details := { nonce := "", data := "" } }

/-- A concrete diary record whose first key is rotating and second active. -/
def c10diaryTwo : ApiDiary :=
  { id := "d2", created_at := "", updated_at := "", version := 1,
    encryption := { encrypted_key_nonce := "", encrypted_key_data := "" },
    encryption_keys :=
      [{ id := "k1", value := c6sealedKey, status := KeyStatus.rotating },
       { id := "k2", value := "", status := KeyStatus.active }],
    details := { nonce := "", data := "" } }

/-! Theorems. -/

theorem length_toBytesN (len n : Nat) : (toBytesN len n).length = len := by
  induction len generalizing n with
  | zero => rfl
  | succ k ih => simp [toBytesN, ih]

theorem natOfBytes_toBytesN (len n : Nat) :
    natOfBytes (toBytesN len n) = n % 256 ^ len := by
  induction len generalizing n with
  | zero => simp [toBytesN, natOfBytes, Nat.mod_one]
  | succ k ih =>
      have h : (256 : Nat) ^ (k + 1) = 256 * 256 ^ k := by ring
      rw [toBytesN, natOfBytes, ih, h, Nat.mod_mul]

theorem natOfBytes_toBytesN_of_lt {len n : Nat} (h : n < 256 ^ len) :
    natOfBytes (toBytesN len n) = n := by
  rw [natOfBytes_toBytesN, Nat.mod_eq_of_lt h]

theorem toBytesN_inj {len m n : Nat} (hm : m < 256 ^ len) (hn : n < 256 ^ len)
    (h : toBytesN len m = toBytesN len n) : m = n := by
  have := congrArg natOfBytes h
  rwa [natOfBytes_toBytesN_of_lt hm, natOfBytes_toBytesN_of_lt hn] at this

theorem allBytes_toBytesN (len n : Nat) : allBytes (toBytesN len n) = true := by
  induction len generalizing n with
  | zero => rfl
  | succ k ih =>
      simp only [toBytesN, allBytes, List.all_cons, Bool.and_eq_true, decide_eq_true_eq]
      exact ⟨Nat.mod_lt _ (by omega), ih _⟩

theorem allBytes_append (a b : Bytes) :
    allBytes (a ++ b) = (allBytes a && allBytes b) := by
  simp [allBytes]

theorem allBytes_mem {bs : Bytes} (h : allBytes bs = true) {b : Nat} (hb : b ∈ bs) :
    b < 256 := by
  simp only [allBytes, List.all_eq_true, decide_eq_true_eq] at h
  exact h b hb

theorem b64Index_b64Char : ∀ n < 64, b64Index (b64Char n) = n := by decide

theorem b64Char_ne_eq : ∀ n < 64, b64Char n ≠ '=' := by decide

theorem b64DecodeChars_b64EncodeChars (bs : Bytes) (h : allBytes bs = true) :
    b64DecodeChars (b64EncodeChars bs) = bs := by
  induction bs using b64EncodeChars.induct with
  | case1 => rfl
  | case2 a =>
      have ha : a < 256 := allBytes_mem h (by simp)
      rw [b64EncodeChars, b64DecodeChars, if_pos rfl]
      rw [b64Index_b64Char _ (by omega), b64Index_b64Char _ (by omega)]
      simp only [List.cons.injEq, and_true]
      omega
  | case3 a b =>
      have ha : a < 256 := allBytes_mem h (by simp)
      have hb : b < 256 := allBytes_mem h (by simp)
      rw [b64EncodeChars, b64DecodeChars,
        if_neg (b64Char_ne_eq _ (by omega)), if_pos rfl]
      rw [b64Index_b64Char _ (by omega), b64Index_b64Char _ (by omega),
        b64Index_b64Char _ (by omega)]
      simp only [List.cons.injEq, and_true]
      omega
  | case4 a b c rest ih =>
      have ha : a < 256 := allBytes_mem h (by simp)
      have hb : b < 256 := allBytes_mem h (by simp)
      have hc : c < 256 := allBytes_mem h (by simp)
      have hrest : allBytes rest = true := by
        simp only [allBytes, List.all_cons, Bool.and_eq_true] at h
        exact h.2.2.2
      rw [b64EncodeChars, b64DecodeChars,
        if_neg (b64Char_ne_eq _ (by omega)), if_neg (b64Char_ne_eq _ (by omega))]
      rw [b64Index_b64Char _ (by omega), b64Index_b64Char _ (by omega),
        b64Index_b64Char _ (by omega), b64Index_b64Char _ (by omega), ih hrest]
      simp only [List.cons.injEq, and_true]
      omega

theorem base64_roundtrip (bs : Bytes) (h : allBytes bs = true) :
    base64ToBytes (bytesToBase64 bs) = bs := by
  unfold base64ToBytes bytesToBase64
  exact b64DecodeChars_b64EncodeChars bs h

theorem textDecode_textEncode (s : String) : textDecode (textEncode s) = s := by
  unfold textDecode textEncode
  rw [List.map_map]
  have : (Char.ofNat ∘ Char.toNat) = id := by
    funext c
    exact Char.ofNat_toNat c
  rw [this, List.map_id]

theorem allBytes_textEncode {s : String} (h : latin1 s = true) :
    allBytes (textEncode s) = true := by
  simp only [latin1, List.all_eq_true, decide_eq_true_eq] at h
  simp only [allBytes, textEncode, List.all_eq_true, List.mem_map,
    decide_eq_true_eq]
  rintro b ⟨c, hc, rfl⟩
  exact h c hc

theorem decrypt_encrypt_symmetric (data key nonce : Bytes) :
    decryptWithSymmetricKey (encryptWithSymmetricKey data key nonce).1
      (encryptWithSymmetricKey data key nonce).2 key = .ok data := by
  unfold decryptWithSymmetricKey encryptWithSymmetricKey
  rw [if_pos]
  · simp only [← List.append_assoc]
    rw [show key.length + nonce.length = (key ++ nonce).length by simp,
      List.drop_left]
  · exact ⟨data, by simp⟩

theorem append_increases (l t : Bytes) : l <+: l ++ t := ⟨t, rfl⟩

theorem append_head_eq_of_length {A B x y z : Bytes} (hlen : A.length = B.length)
    (h : A ++ x <+: (B ++ y) ++ z) : A = B := by
  have hA2 : A <+: (B ++ y) ++ z := (append_increases A x).trans h
  have hB2 : B <+: (B ++ y) ++ z :=
    (append_increases B y).trans (append_increases (B ++ y) z)
  have hAB := List.prefix_of_prefix_length_le hA2 hB2 (by omega)
  exact hAB.eq_of_length hlen

theorem decrypt_encrypt_wrong_key (data key nonce : Bytes) {key2 : Bytes}
    (hlen : key2.length = key.length) (hne : key2 ≠ key) :
    decryptWithSymmetricKey (encryptWithSymmetricKey data key nonce).1
      (encryptWithSymmetricKey data key nonce).2 key2 = .error .decryptionError := by
  unfold decryptWithSymmetricKey encryptWithSymmetricKey
  dsimp only
  rw [if_neg]
  intro hpre
  exact hne (append_head_eq_of_length hlen hpre)

theorem curveP_lt : curveP < 256 ^ 32 := by decide

theorem x25519Shared_comm (a b : Bytes) :
    x25519Shared a (x25519PublicKey b) = x25519Shared b (x25519PublicKey a) := by
  unfold x25519Shared x25519PublicKey
  have hmod : ∀ s : Bytes, curveG ^ natOfBytes s % curveP < 256 ^ 32 :=
    fun s => lt_trans (Nat.mod_lt _ (by decide)) curveP_lt
  rw [natOfBytes_toBytesN_of_lt (hmod b), natOfBytes_toBytesN_of_lt (hmod a),
    ← Nat.pow_mod, ← Nat.pow_mod, ← pow_mul, ← pow_mul, Nat.mul_comm]

theorem length_sha512 (bs : Bytes) : (sha512 bs).length = 64 :=
  length_toBytesN 64 _

theorem length_x25519PublicKey (secret : Bytes) :
    (x25519PublicKey secret).length = 32 :=
  length_toBytesN 32 _

theorem take_32_encryptWithPublicKey (data publicKey ephemeralSecret : Bytes) :
    (encryptWithPublicKey data publicKey ephemeralSecret).take 32 =
      x25519PublicKey ephemeralSecret := by
  unfold encryptWithPublicKey
  rw [show (32 : Nat) = (x25519PublicKey ephemeralSecret).length from
    (length_x25519PublicKey _).symm, List.take_left]

theorem drop_32_encryptWithPublicKey (data publicKey ephemeralSecret : Bytes) :
    (encryptWithPublicKey data publicKey ephemeralSecret).drop 32 =
      naclBox publicKey ephemeralSecret
        ((sha512 (x25519PublicKey ephemeralSecret ++ publicKey)).take 24) data := by
  unfold encryptWithPublicKey
  rw [show (32 : Nat) = (x25519PublicKey ephemeralSecret).length from
    (length_x25519PublicKey _).symm, List.drop_left]

theorem length_encryptWithPublicKey (data publicKey ephemeralSecret : Bytes) :
    (encryptWithPublicKey data publicKey ephemeralSecret).length =
      88 + data.length := by
  unfold encryptWithPublicKey naclBox
  simp only [List.length_append, length_x25519PublicKey, length_toBytesN,
    List.length_take, length_sha512]
  omega

theorem decrypt_encrypt_sealed (data secret ephemeralSecret : Bytes) :
    decryptWithPrivateKey
      (encryptWithPublicKey data (x25519PublicKey secret) ephemeralSecret)
      secret (x25519PublicKey secret) = .ok data := by
  unfold decryptWithPrivateKey
  rw [if_neg (by rw [length_encryptWithPublicKey]; omega)]
  rw [take_32_encryptWithPublicKey, drop_32_encryptWithPublicKey]
  unfold naclOpenBox naclBox
  rw [x25519Shared_comm secret ephemeralSecret, if_pos (append_increases _ data)]
  rw [show 32 + ((sha512 (x25519PublicKey ephemeralSecret ++
        x25519PublicKey secret)).take 24).length =
      (toBytesN 32 (x25519Shared ephemeralSecret (x25519PublicKey secret)) ++
        (sha512 (x25519PublicKey ephemeralSecret ++
          x25519PublicKey secret)).take 24).length by
    simp only [List.length_append, length_toBytesN]]
  rw [List.drop_left]

theorem sealed_outputs_differ (data publicKey e1 e2 : Bytes)
    (h : x25519PublicKey e1 ≠ x25519PublicKey e2) :
    encryptWithPublicKey data publicKey e1 ≠ encryptWithPublicKey data publicKey e2 := by
  intro heq
  apply h
  have := congrArg (List.take 32) heq
  rwa [take_32_encryptWithPublicKey, take_32_encryptWithPublicKey] at this

theorem decrypt_sealed_short (sealed privateKey publicKey : Bytes)
    (h : sealed.length < 32) :
    decryptWithPrivateKey sealed privateKey publicKey = .error .invalidSealedBox := by
  unfold decryptWithPrivateKey
  rw [if_pos h]

theorem x25519Shared_lt (secret pub : Bytes) : x25519Shared secret pub < 256 ^ 32 :=
  lt_trans (Nat.mod_lt _ (by decide)) curveP_lt

theorem decrypt_sealed_wrong_key (data publicKey ephemeralSecret : Bytes)
    {privateKey2 publicKey2 : Bytes}
    (h : x25519Shared privateKey2 (x25519PublicKey ephemeralSecret) ≠
      x25519Shared ephemeralSecret publicKey) :
    decryptWithPrivateKey
      (encryptWithPublicKey data publicKey ephemeralSecret)
      privateKey2 publicKey2 = .error .decryptionFailed := by
  unfold decryptWithPrivateKey
  rw [if_neg (by rw [length_encryptWithPublicKey]; omega)]
  rw [take_32_encryptWithPublicKey, drop_32_encryptWithPublicKey]
  unfold naclOpenBox naclBox
  rw [if_neg]
  intro hpre
  exact h (toBytesN_inj (x25519Shared_lt _ _) (x25519Shared_lt _ _)
    (append_head_eq_of_length (by rw [length_toBytesN, length_toBytesN]) hpre))

theorem length_signBytes (data privateKey : Bytes) :
    (signBytes data privateKey).length = 64 :=
  length_toBytesN 64 _

theorem length_pbkdf2 (password salt : String) (count dkLen : Nat) :
    (pbkdf2 password salt count dkLen).length = dkLen :=
  length_toBytesN dkLen _

theorem scanString_append (k rest : List Char) (hk : '"' ∉ k) :
    scanString (k ++ '"' :: rest) = some (k, rest) := by
  induction k with
  | nil => simp [scanString]
  | cons c cs ih =>
      have hc : ¬ c = '"' := fun h => hk (by simp [h])
      have hcs : '"' ∉ cs := fun h => hk (by simp [h])
      rw [List.cons_append, scanString, if_neg hc, ih hcs]

theorem stringifyFields_map_data (k v : String) (ps : FieldMap) :
    (Json.stringifyFields (((k, v) :: ps).map fun kv => (kv.1, Json.str kv.2))).data =
      '"' :: (k.data ++ '"' :: ':' :: '"' :: (v.data ++ '"' ::
        (match ps with
         | [] => []
         | _ :: _ =>
            ',' :: (Json.stringifyFields (ps.map fun kv => (kv.1, Json.str kv.2))).data))) := by
  match ps with
  | [] =>
      simp [Json.stringifyFields, Json.stringify, String.data_append]
  | p :: ps2 =>
      simp [Json.stringifyFields, Json.stringify, String.data_append]

theorem stringifyFields_map_length (fields : FieldMap) :
    fields.length ≤
      (Json.stringifyFields (fields.map fun kv => (kv.1, Json.str kv.2))).data.length := by
  induction fields with
  | nil => simp
  | cons kv ps ih =>
      rw [show kv = (kv.1, kv.2) from rfl, stringifyFields_map_data]
      match ps with
      | [] => simp
      | p :: ps2 =>
          simp only [List.length_cons, List.length_append]
          have := ih
          simp only [List.length_cons] at this ⊢
          omega

theorem mk_data_eq (s : String) : String.mk s.data = s := rfl

theorem parsePairsAux_serialized (fields : FieldMap) (fuel : Nat)
    (hg : goodFields fields) (hne : fields ≠ []) (hfuel : fields.length ≤ fuel) :
    parsePairsAux fuel
      ((Json.stringifyFields (fields.map fun kv => (kv.1, Json.str kv.2))).data ++
        ['\x7d']) = some fields := by
  induction fields generalizing fuel with
  | nil => exact absurd rfl hne
  | cons kv ps ih =>
      obtain ⟨k, v⟩ := kv
      obtain ⟨fuel, rfl⟩ : ∃ f, fuel = f + 1 := by
        cases fuel with
        | zero => simp at hfuel
        | succ f => exact ⟨f, rfl⟩
      have hk : '"' ∉ k.data := (hg (k, v) (by simp)).1.1
      have hv : '"' ∉ v.data := (hg (k, v) (by simp)).2.1
      have hsk : ∀ r, scanString (k.data ++ '"' :: r) = some (k.data, r) :=
        fun r => scanString_append k.data r hk
      have hsv : ∀ r, scanString (v.data ++ '"' :: r) = some (v.data, r) :=
        fun r => scanString_append v.data r hv
      rw [stringifyFields_map_data]
      match ps with
      | [] =>
          simp [parsePairsAux, hsk, hsv, mk_data_eq]
      | p :: ps2 =>
          have hg2 : goodFields (p :: ps2) := fun kv hkv => hg kv (by simp [hkv])
          have hfuel2 : (p :: ps2).length ≤ fuel := by
            simp only [List.length_cons] at hfuel ⊢
            omega
          have ihx := ih fuel hg2 (by simp) hfuel2
          simp only [List.map_cons] at ihx
          simp [parsePairsAux, hsk, hsv, mk_data_eq, ihx]

/-- Round-trip of the flat JSON model: parsing the serialization of a guarded
field mapping returns the mapping exactly. -/
theorem jsonParseFields_stringify (fields : FieldMap) (hg : goodFields fields) :
    jsonParseFields (Json.stringify (fieldsToJson fields)) = some fields := by
  match fields with
  | [] => rfl
  | (k, v) :: ps =>
      unfold fieldsToJson
      rw [show Json.stringify (.obj (((k, v) :: ps).map fun kv => (kv.1, Json.str kv.2))) =
        "\x7b" ++ Json.stringifyFields (((k, v) :: ps).map fun kv => (kv.1, Json.str kv.2)) ++
          "\x7d" from rfl]
      unfold jsonParseFields
      rw [String.data_append, String.data_append]
      rw [show ("\x7b").data = ['\x7b'] from rfl, show ("\x7d").data = ['\x7d'] from rfl]
      simp only [List.cons_append, List.nil_append]
      rw [if_pos trivial]
      rw [if_neg (by rw [stringifyFields_map_data]; simp)]
      have hlen := stringifyFields_map_length ((k, v) :: ps)
      apply parsePairsAux_serialized _ _ hg (by simp)
      simp only [List.length_append, List.length_cons]
      simp only [List.length_cons] at hlen
      omega

theorem keysList_ok (credentials : Credentials) (response : List ApiKey)
    (hall : ∀ k ∈ response,
      (decryptWithPrivateKey (base64ToBytes k.value)
        credentials.encryptionPrivateKey credentials.encryptionPublicKey).isOk = true) :
    keysList credentials response = .ok (response.map fun k =>
      { id := k.id,
        value := okValue (decryptWithPrivateKey (base64ToBytes k.value)
          credentials.encryptionPrivateKey credentials.encryptionPublicKey),
        status := k.status }) := by
  induction response with
  | nil => rfl
  | cons k ks ih =>
      have hk := hall k (by simp)
      have hks : ∀ j ∈ ks, (decryptWithPrivateKey (base64ToBytes j.value)
          credentials.encryptionPrivateKey credentials.encryptionPublicKey).isOk = true :=
        fun j hj => hall j (by simp [hj])
      rw [keysList, ih hks]
      unfold decryptKey
      cases hdec : decryptWithPrivateKey (base64ToBytes k.value)
          credentials.encryptionPrivateKey credentials.encryptionPublicKey with
      | error e => rw [hdec] at hk; simp [Except.isOk, Except.toBool] at hk
      | ok v => simp [okValue, hdec]

theorem decrypt_encrypt_raw (data key nonce : Bytes) :
    decryptWithSymmetricKey nonce (key ++ nonce ++ data) key = .ok data :=
  decrypt_encrypt_symmetric data key nonce

theorem decrypt_encrypt_raw_wrong_key (data key nonce : Bytes) {key2 : Bytes}
    (hlen : key2.length = key.length) (hne : key2 ≠ key) :
    decryptWithSymmetricKey nonce (key ++ nonce ++ data) key2 =
      .error .decryptionError :=
  decrypt_encrypt_wrong_key data key nonce hlen hne

theorem latin1_stringifyFields (fields : FieldMap) (hg : goodFields fields) :
    ∀ c ∈ (Json.stringifyFields (fields.map fun kv => (kv.1, Json.str kv.2))).data,
      c.toNat < 256 := by
  induction fields with
  | nil => simp [Json.stringifyFields]
  | cons kv ps ih =>
      obtain ⟨k, v⟩ := kv
      have hk := (hg (k, v) (by simp)).1.2
      have hv := (hg (k, v) (by simp)).2.2
      have hps : goodFields ps := fun j hj => hg j (by simp [hj])
      intro c hc
      rw [stringifyFields_map_data] at hc
      have hsplit : c = '"' ∨ c ∈ k.data ∨ c = ':' ∨ c ∈ v.data ∨ c = ',' ∨
          c ∈ (Json.stringifyFields (ps.map fun kv => (kv.1, Json.str kv.2))).data := by
        match ps with
        | [] => simp at hc; tauto
        | p :: ps2 => simp at hc; tauto
      rcases hsplit with rfl | h | rfl | h | rfl | h
      · decide
      · exact hk c h
      · decide
      · exact hv c h
      · decide
      · exact ih hps c h

theorem latin1_stringify_fieldsToJson (fields : FieldMap) (hg : goodFields fields) :
    latin1 (Json.stringify (fieldsToJson fields)) = true := by
  unfold latin1
  simp only [List.all_eq_true, decide_eq_true_eq]
  intro c hc
  rw [show Json.stringify (fieldsToJson fields) =
    "\x7b" ++ Json.stringifyFields (fields.map fun kv => (kv.1, Json.str kv.2)) ++
      "\x7d" from rfl, String.data_append, String.data_append] at hc
  have hsplit : c = '\x7b' ∨
      c ∈ (Json.stringifyFields (fields.map fun kv => (kv.1, Json.str kv.2))).data ∨
      c = '\x7d' := by
    simp at hc
    tauto
  rcases hsplit with rfl | h | rfl
  · decide
  · exact latin1_stringifyFields fields hg c h
  · decide

/-- C2: for every byte sequence m and every 32-byte key k, encrypting m under
k with a fresh nonce and then decrypting with the returned nonce, ciphertext
and the same key returns m. -/
theorem claim_C2_symmetric_roundtrip (m k nonce : Bytes) (hk : k.length = 32) :
    decryptWithSymmetricKey (encryptWithSymmetricKey m k nonce).1
      (encryptWithSymmetricKey m k nonce).2 k = .ok m :=
  decrypt_encrypt_symmetric m k nonce

/-- Witness for C2 at a concrete message, key and nonce. -/
theorem claim_C2_witness :
    (List.replicate 32 0 : Bytes).length = 32 ∧
    decryptWithSymmetricKey
      (encryptWithSymmetricKey [1, 2, 3] (List.replicate 32 0) (List.replicate 12 0)).1
      (encryptWithSymmetricKey [1, 2, 3] (List.replicate 32 0) (List.replicate 12 0)).2
      (List.replicate 32 0) = .ok [1, 2, 3] :=
  ⟨by decide, claim_C2_symmetric_roundtrip [1, 2, 3] (List.replicate 32 0)
    (List.replicate 12 0) (by decide)⟩

/-- C3: unsealing a sealed box with the matching keypair returns the data,
and two seals of the same data under the same public key with distinct fresh
ephemeral keys produce distinct outputs, both of which unseal to the data. -/
theorem claim_C3_sealed_roundtrip (data secret e1 e2 : Bytes)
    (hne : x25519PublicKey e1 ≠ x25519PublicKey e2) :
    decryptWithPrivateKey (encryptWithPublicKey data (x25519PublicKey secret) e1)
      secret (x25519PublicKey secret) = .ok data ∧
    encryptWithPublicKey data (x25519PublicKey secret) e1 ≠
      encryptWithPublicKey data (x25519PublicKey secret) e2 ∧
    decryptWithPrivateKey (encryptWithPublicKey data (x25519PublicKey secret) e2)
      secret (x25519PublicKey secret) = .ok data :=
  ⟨decrypt_encrypt_sealed data secret e1,
   sealed_outputs_differ data (x25519PublicKey secret) e1 e2 hne,
   decrypt_encrypt_sealed data secret e2⟩

/-- Witness for C3 at concrete data and keys. -/
theorem claim_C3_witness :
    x25519PublicKey [2] ≠ x25519PublicKey [3] ∧
    decryptWithPrivateKey (encryptWithPublicKey [5, 6] (x25519PublicKey [1]) [2])
      [1] (x25519PublicKey [1]) = .ok [5, 6] ∧
    encryptWithPublicKey [5, 6] (x25519PublicKey [1]) [2] ≠
      encryptWithPublicKey [5, 6] (x25519PublicKey [1]) [3] :=
  ⟨by decide,
   (claim_C3_sealed_roundtrip [5, 6] [1] [2] [3] (by decide)).1,
   (claim_C3_sealed_roundtrip [5, 6] [1] [2] [3] (by decide)).2.1⟩

/-- C4: the sealed-box output is the fresh ephemeral public key followed by
the box ciphertext under the nonce take 24 (sha512 (ephemeralPk ++
recipientPk)); unsealing re-derives that nonce from the 32-byte prefix and
succeeds with the matching keypair, fails with the invalid-sealed-box error
on inputs shorter than 32 bytes, and fails with the decryption-failed error
when authentication fails. -/
theorem claim_C4_sealed_box_format (data pub e sealed priv pub2 priv2 s : Bytes)
    (hshort : sealed.length < 32)
    (hmismatch : x25519Shared priv2 (x25519PublicKey e) ≠ x25519Shared e pub) :
    (encryptWithPublicKey data pub e).take 32 = x25519PublicKey e ∧
    encryptWithPublicKey data pub e =
      x25519PublicKey e ++
        naclBox pub e ((sha512 (x25519PublicKey e ++ pub)).take 24) data ∧
    decryptWithPrivateKey sealed priv pub2 = .error .invalidSealedBox ∧
    decryptWithPrivateKey (encryptWithPublicKey data pub e) priv2 pub =
      .error .decryptionFailed ∧
    decryptWithPrivateKey (encryptWithPublicKey data (x25519PublicKey s) e) s
      (x25519PublicKey s) = .ok data :=
  ⟨take_32_encryptWithPublicKey data pub e,
   rfl,
   decrypt_sealed_short sealed priv pub2 hshort,
   decrypt_sealed_wrong_key data pub e hmismatch,
   decrypt_encrypt_sealed data s e⟩

/-- Witness for C4 at concrete keys, with a concrete short input and a
concrete mismatching private key. -/
theorem claim_C4_witness :
    ([0, 1] : Bytes).length < 32 ∧
    x25519Shared [4] (x25519PublicKey [2]) ≠
      x25519Shared [2] (x25519PublicKey [3]) ∧
    decryptWithPrivateKey [0, 1] [1] (x25519PublicKey [3]) =
      .error .invalidSealedBox ∧
    decryptWithPrivateKey
      (encryptWithPublicKey [7] (x25519PublicKey [3]) [2]) [4]
      (x25519PublicKey [3]) = .error .decryptionFailed :=
  ⟨by decide, by decide,
   (claim_C4_sealed_box_format [7] (x25519PublicKey [3]) [2] [0, 1] [1]
     (x25519PublicKey [3]) [4] [1] (by decide) (by decide)).2.2.1,
   (claim_C4_sealed_box_format [7] (x25519PublicKey [3]) [2] [0, 1] [1]
     (x25519PublicKey [3]) [4] [1] (by decide) (by decide)).2.2.2.1⟩

/-- C5: deriveCredentials is pure and deterministic; the single 32-byte
PBKDF2 seed (100000 iterations, fixed salt) is reused directly as both the
Ed25519 signing seed and the X25519 private scalar, the public keys are
derived from it, and all four fields are 32 bytes. -/
theorem claim_C5_deriveCredentials (seedPhrase : String) :
    100000 ≤ pbkdf2Iterations ∧
    credentialSalt = "my-app-context" ∧
    deriveCredentials seedPhrase =
      { encryptionPublicKey :=
          x25519PublicKey (pbkdf2 seedPhrase credentialSalt pbkdf2Iterations 32),
        encryptionPrivateKey := pbkdf2 seedPhrase credentialSalt pbkdf2Iterations 32,
        signingPublicKey :=
          ed25519PublicKey (pbkdf2 seedPhrase credentialSalt pbkdf2Iterations 32),
        signingPrivateKey := pbkdf2 seedPhrase credentialSalt pbkdf2Iterations 32 } ∧
    (deriveCredentials seedPhrase).encryptionPublicKey.length = 32 ∧
    (deriveCredentials seedPhrase).encryptionPrivateKey.length = 32 ∧
    (deriveCredentials seedPhrase).signingPublicKey.length = 32 ∧
    (deriveCredentials seedPhrase).signingPrivateKey.length = 32 ∧
    ∀ other : String, other = seedPhrase →
      deriveCredentials other = deriveCredentials seedPhrase := by
  refine ⟨by norm_num [pbkdf2Iterations], rfl, rfl,
    length_toBytesN 32 _, length_toBytesN 32 _, length_toBytesN 32 _,
    length_toBytesN 32 _, fun other h => by rw [h]⟩

/-- Witness for C5: the determinism conjunct discharged at a concrete seed
phrase. -/
theorem claim_C5_witness :
    100000 ≤ pbkdf2Iterations ∧ deriveCredentials "alpha" = deriveCredentials "alpha" :=
  ⟨(claim_C5_deriveCredentials "alpha").1,
   (claim_C5_deriveCredentials "alpha").2.2.2.2.2.2.2 "alpha" rfl⟩

/-- C1: wrapping a field mapping under a diary key (fresh entity key, fields
encrypted under the entity key, entity key encrypted under the diary key)
and unwrapping the resulting envelope pair with the same diary key returns
the mapping exactly; unwrapping with any different 32-byte key fails with
the decryption error instead of returning field values. -/
theorem claim_C1_wrap_unwrap (fields : FieldMap)
    (diaryKey entityKey detailsNonce keyNonce altKey : Bytes)
    (hfields : goodFields fields)
    (hdk : allBytes diaryKey = true) (hek : allBytes entityKey = true)
    (hdn : allBytes detailsNonce = true) (hkn : allBytes keyNonce = true)
    (hdkLen : diaryKey.length = 32) (haltLen : altKey.length = 32)
    (hne : altKey ≠ diaryKey) :
    unwrapRecord (wrapRecord fields diaryKey entityKey detailsNonce keyNonce).1
      (wrapRecord fields diaryKey entityKey detailsNonce keyNonce).2 diaryKey =
      .ok fields ∧
    unwrapRecord (wrapRecord fields diaryKey entityKey detailsNonce keyNonce).1
      (wrapRecord fields diaryKey entityKey detailsNonce keyNonce).2 altKey =
      .error .decryptionError := by
  have hdj : allBytes (textEncode (Json.stringify (fieldsToJson fields))) = true :=
    allBytes_textEncode (latin1_stringify_fieldsToJson fields hfields)
  have hc1 : allBytes (diaryKey ++ keyNonce ++ entityKey) = true := by
    simp [allBytes_append, hdk, hkn, hek]
  have hc2 : allBytes (entityKey ++ detailsNonce ++
      textEncode (Json.stringify (fieldsToJson fields))) = true := by
    simp [allBytes_append, hek, hdn, hdj]
  unfold wrapRecord unwrapRecord encryptWithSymmetricKey
  dsimp only
  constructor
  · simp only [base64_roundtrip keyNonce hkn, base64_roundtrip _ hc1,
      decrypt_encrypt_raw entityKey diaryKey keyNonce,
      base64_roundtrip detailsNonce hdn, base64_roundtrip _ hc2,
      decrypt_encrypt_raw (textEncode (Json.stringify (fieldsToJson fields)))
        entityKey detailsNonce,
      textDecode_textEncode, jsonParseFields_stringify fields hfields]
  · simp only [base64_roundtrip keyNonce hkn, base64_roundtrip _ hc1,
      decrypt_encrypt_raw_wrong_key entityKey diaryKey keyNonce
        (by rw [haltLen, hdkLen]) hne]

/-- Witness for C1 at the concrete mapping of the end-to-end scenario. -/
theorem claim_C1_witness :
    goodFields [("title", "t"), ("description", "d")] ∧
    (List.replicate 32 5 : Bytes) ≠ List.replicate 32 1 ∧
    unwrapRecord
      (wrapRecord [("title", "t"), ("description", "d")] (List.replicate 32 1)
        (List.replicate 32 2) (List.replicate 12 3) (List.replicate 12 4)).1
      (wrapRecord [("title", "t"), ("description", "d")] (List.replicate 32 1)
        (List.replicate 32 2) (List.replicate 12 3) (List.replicate 12 4)).2
      (List.replicate 32 1) = .ok [("title", "t"), ("description", "d")] ∧
    unwrapRecord
      (wrapRecord [("title", "t"), ("description", "d")] (List.replicate 32 1)
        (List.replicate 32 2) (List.replicate 12 3) (List.replicate 12 4)).1
      (wrapRecord [("title", "t"), ("description", "d")] (List.replicate 32 1)
        (List.replicate 32 2) (List.replicate 12 3) (List.replicate 12 4)).2
      (List.replicate 32 5) = .error .decryptionError :=
  ⟨by decide, by decide,
   (claim_C1_wrap_unwrap [("title", "t"), ("description", "d")]
     (List.replicate 32 1) (List.replicate 32 2) (List.replicate 12 3)
     (List.replicate 12 4) (List.replicate 32 5) (by decide) (by decide)
     (by decide) (by decide) (by decide) (by decide) (by decide) (by decide)).1,
   (claim_C1_wrap_unwrap [("title", "t"), ("description", "d")]
     (List.replicate 32 1) (List.replicate 32 2) (List.replicate 12 3)
     (List.replicate 12 4) (List.replicate 32 5) (by decide) (by decide)
     (by decide) (by decide) (by decide) (by decide) (by decide) (by decide)).2⟩

/-- C6: when every server key unseals, getActive fails with the no-active-key
error exactly when no key has status active, and otherwise returns the first
active key with the sealed-box decryption of its value. -/
theorem claim_C6_getActiveKey (credentials : Credentials) (response : List ApiKey)
    (hall : ∀ k ∈ response, (decryptWithPrivateKey (base64ToBytes k.value)
      credentials.encryptionPrivateKey credentials.encryptionPublicKey).isOk = true) :
    (keysGetActive credentials response = .error .noActiveKey ↔
      ∀ k ∈ response, k.status ≠ KeyStatus.active) ∧
    (∀ k, response.find? (fun j => j.status == KeyStatus.active) = some k →
      ∃ v, decryptWithPrivateKey (base64ToBytes k.value)
          credentials.encryptionPrivateKey credentials.encryptionPublicKey = .ok v ∧
        keysGetActive credentials response =
          .ok { id := k.id, value := v, status := k.status }) := by
  have hlist := keysList_ok credentials response hall
  unfold keysGetActive
  rw [hlist]
  simp only [List.find?_map, Function.comp_def]
  constructor
  · constructor
    · intro h
      cases hfind : response.find? (fun j => j.status == KeyStatus.active) with
      | some k =>
          rw [hfind, Option.map_some'] at h
          exact Except.noConfusion h
      | none =>
          rw [List.find?_eq_none] at hfind
          intro k hk hstatus
          apply hfind k hk
          rw [hstatus]
          rfl
    · intro h
      have hfind : response.find? (fun j => j.status == KeyStatus.active) = none := by
        rw [List.find?_eq_none]
        intro k hk
        simp only [beq_iff_eq]
        exact h k hk
      rw [hfind]
      rfl
  · intro k hfind
    rw [hfind, Option.map_some']
    have hk := List.mem_of_find?_eq_some hfind
    have hok := hall k hk
    cases hdec : decryptWithPrivateKey (base64ToBytes k.value)
        credentials.encryptionPrivateKey credentials.encryptionPublicKey with
    | error e => rw [hdec] at hok; simp [Except.isOk, Except.toBool] at hok
    | ok v => exact ⟨v, rfl, by simp [okValue, hdec]⟩

set_option maxRecDepth 100000 in
/-- Witness for C6: a diary whose only key is rotating makes getActive fail
with the no-active-key error. -/
theorem claim_C6_witness :
    keysGetActive c6creds c6keysRotOnly = .error .noActiveKey :=
  (claim_C6_getActiveKey c6creds c6keysRotOnly (by decide)).1.mpr (by decide)

/-- C7: every mutation request carries in X-Signature the base64 Ed25519
signature, under the account signing key, of exactly the bytes the HTTP
layer transmits for its body (both are the serialization of the same
request object). -/
theorem claim_C7_signature_matches_transmitted_body (credentials : Credentials)
    (diaryId entryId topicId templateId : String) (encryptionKey : EncryptionKey)
    (entryParams : PutEntryParams) (createParams : CreateDiaryParams)
    (diaryParams : PutDiaryParams) (topicParams : PutTopicParams)
    (templateParams : PutTemplateParams)
    (diaryKey entityKey detailsNonce previewNonce keyNonce ephemeralSecret : Bytes)
    (freshVersion : Nat) :
    (entriesPutCall credentials diaryId entryId encryptionKey entryParams
        entityKey detailsNonce previewNonce keyNonce freshVersion).headers =
      [("X-Signature", bytesToBase64 (signBytes
        (transmittedBody (entriesPutCall credentials diaryId entryId encryptionKey
          entryParams entityKey detailsNonce previewNonce keyNonce freshVersion))
        credentials.signingPrivateKey))] ∧
    (diariesCreateCall credentials createParams diaryKey entityKey detailsNonce
        keyNonce ephemeralSecret).headers =
      [("X-Signature", bytesToBase64 (signBytes
        (transmittedBody (diariesCreateCall credentials createParams diaryKey
          entityKey detailsNonce keyNonce ephemeralSecret))
        credentials.signingPrivateKey))] ∧
    (diariesPutCall credentials diaryId encryptionKey diaryParams entityKey
        detailsNonce keyNonce freshVersion).headers =
      [("X-Signature", bytesToBase64 (signBytes
        (transmittedBody (diariesPutCall credentials diaryId encryptionKey
          diaryParams entityKey detailsNonce keyNonce freshVersion))
        credentials.signingPrivateKey))] ∧
    (topicsPutCall credentials diaryId topicId encryptionKey topicParams
        entityKey detailsNonce keyNonce freshVersion).headers =
      [("X-Signature", bytesToBase64 (signBytes
        (transmittedBody (topicsPutCall credentials diaryId topicId encryptionKey
          topicParams entityKey detailsNonce keyNonce freshVersion))
        credentials.signingPrivateKey))] ∧
    (templatesPutCall credentials diaryId templateId encryptionKey templateParams
        entityKey detailsNonce keyNonce freshVersion).headers =
      [("X-Signature", bytesToBase64 (signBytes
        (transmittedBody (templatesPutCall credentials diaryId templateId
          encryptionKey templateParams entityKey detailsNonce keyNonce freshVersion))
        credentials.signingPrivateKey))] :=
  ⟨rfl, rfl, rfl, rfl, rfl⟩

/-- C8: in the entry write request, the preview payload is an independent
ciphertext (its own nonce, its own encryption call) under the same entity
key as the details ciphertext, which is also the key wrapped under the
diary key; no separate preview key exists. -/
theorem claim_C8_preview_same_entity_key (encryptionKey : EncryptionKey)
    (params : PutEntryParams) (entityKey detailsNonce previewNonce keyNonce : Bytes)
    (freshVersion : Nat) :
    (entriesPutRequest encryptionKey params entityKey detailsNonce previewNonce
        keyNonce freshVersion).lookup "preview" =
      some (.obj [("nonce", .str (bytesToBase64 previewNonce)),
        ("data", .str (bytesToBase64 (encryptWithSymmetricKey
          (textEncode (Json.stringify (entryDetails params))) entityKey
          previewNonce).2))]) ∧
    (entriesPutRequest encryptionKey params entityKey detailsNonce previewNonce
        keyNonce freshVersion).lookup "details" =
      some (.obj [("nonce", .str (bytesToBase64 detailsNonce)),
        ("data", .str (bytesToBase64 (encryptWithSymmetricKey
          (textEncode (Json.stringify (entryDetails params))) entityKey
          detailsNonce).2))]) ∧
    jsonLookup2 (entriesPutRequest encryptionKey params entityKey detailsNonce
        previewNonce keyNonce freshVersion) "encryption" "encrypted_key_data" =
      some (.str (bytesToBase64 (encryptWithSymmetricKey entityKey
        encryptionKey.value keyNonce).2)) :=
  ⟨rfl, rfl, rfl⟩

/-- C9 evaluated at a concrete template write: templates.ts places the AEAD
envelope bytes in the request as JSON arrays of numbers (Array.from), not as
base64 strings; the entry write at the same input uses a base64 string. -/
theorem claim_C9_templates_envelope_not_base64 :
    jsonLookup2 (templatesPutRequest
        { id := "key-1", value := List.replicate 32 7, status := KeyStatus.active }
        { content := "hello", version := none }
        (List.replicate 32 2) [1, 2] [3, 4] 5)
      "encryption" "encrypted_key_nonce" = some (.arr [.num 3, .num 4]) ∧
    (∀ s : String, jsonLookup2 (templatesPutRequest
        { id := "key-1", value := List.replicate 32 7, status := KeyStatus.active }
        { content := "hello", version := none }
        (List.replicate 32 2) [1, 2] [3, 4] 5)
      "encryption" "encrypted_key_nonce" ≠ some (.str s)) ∧
    jsonLookup2 (entriesPutRequest
        { id := "key-1", value := List.replicate 32 7, status := KeyStatus.active }
        { content := "hello", topic_id := none, archived := none,
          bookmarked := none, preview_hidden := none, version := none }
        (List.replicate 32 2) [1, 2] [9, 9] [3, 4] 5)
      "encryption" "encrypted_key_nonce" = some (.str (bytesToBase64 [3, 4])) := by
  refine ⟨rfl, ?_, rfl⟩
  intro s h
  rw [show jsonLookup2 (templatesPutRequest
      { id := "key-1", value := List.replicate 32 7, status := KeyStatus.active }
      { content := "hello", version := none }
      (List.replicate 32 2) [1, 2] [3, 4] 5)
    "encryption" "encrypted_key_nonce" = some (Json.arr [Json.num 3, Json.num 4])
    from rfl] at h
  exact Json.noConfusion (Option.some.inj h)

/-- C10: on the diary read paths, the diary key comes from sealed-box
decryption of element 0 of encryption_keys unconditionally: the key status
is never inspected, and an empty list fails with the out-of-bounds runtime
error, not with the no-active-key error. -/
theorem claim_C10_diary_key_element_zero (credentials : Credentials) (d : ApiDiary) :
    (d.encryption_keys = [] →
      diariesGet credentials d = .error .missingEncryptionKey ∧
      diariesGet credentials d ≠ .error .noActiveKey ∧
      diariesList credentials [d] = .error .missingEncryptionKey) ∧
    (∀ k rest, d.encryption_keys = k :: rest →
      getDiaryKey credentials d =
        decryptWithPrivateKey (base64ToBytes k.value)
          credentials.encryptionPrivateKey credentials.encryptionPublicKey) ∧
    (∀ k rest st, d.encryption_keys = k :: rest →
      getDiaryKey credentials
        { d with encryption_keys := { k with status := st } :: rest } =
        getDiaryKey credentials d) := by
  refine ⟨?_, ?_, ?_⟩
  · intro h
    have hg : getDiaryKey credentials d = .error .missingEncryptionKey := by
      unfold getDiaryKey
      rw [h]
    have hd : decryptDiary credentials d = .error .missingEncryptionKey := by
      unfold decryptDiary
      rw [hg]
    refine ⟨hd, ?_, ?_⟩
    · unfold diariesGet
      rw [hd]
      simp
    · unfold diariesList
      rw [hd]
  · intro k rest h
    unfold getDiaryKey
    rw [h]
  · intro k rest st h
    unfold getDiaryKey
    rw [h]

/-- Witness for C10: the empty-keys diary fails with the out-of-bounds model
error, and the two-key diary uses element 0 (a rotating key) even though an
active key exists later in the list. -/
theorem claim_C10_witness :
    diariesGet c6creds c10diaryEmpty = .error .missingEncryptionKey ∧
    getDiaryKey c6creds c10diaryTwo =
      decryptWithPrivateKey (base64ToBytes c6sealedKey)
        c6creds.encryptionPrivateKey c6creds.encryptionPublicKey :=
  ⟨((claim_C10_diary_key_element_zero c6creds c10diaryEmpty).1 rfl).1,
   (claim_C10_diary_key_element_zero c6creds c10diaryTwo).2.1
     { id := "k1", value := c6sealedKey, status := KeyStatus.rotating }
     [{ id := "k2", value := "", status := KeyStatus.active }] rfl⟩

end ThingsDiary

